import Mathlib

/-!
Shallow embedding of the blockstack name-registry core (pricing, wire codec
for the NAME_PREORDER / NAME_TRANSFER / NAMESPACE_REVEAL operations, and the
corresponding `check` precondition predicates), translated from
`src/blockstack/lib/{config,scripts}.py`,
`src/blockstack/lib/operations/{preorder,transfer,namespacereveal}.py` and
`src/blockstore/lib/operations/transfer.py`.

Python 2 byte strings are embedded as `List Char` (for textual data) or
`List ℕ` (for binary payloads, one `ℕ` per byte).  Python `float`
arithmetic in `price_name` is embedded as exact rational arithmetic.
-/

/-! ### Constants from `lib/config.py` -/

def NAME_COST_UNIT : ℕ := 100

def MAX_NAMES_PER_SENDER : ℕ := 25

def BLOCKSTACK_VERSION : ℕ := 1

def SATOSHIS_PER_BTC : ℕ := 10 ^ 8

def NAMESPACE_1_CHAR_COST : ℕ := 400 * SATOSHIS_PER_BTC

def NAMESPACE_23_CHAR_COST : ℕ := 40 * SATOSHIS_PER_BTC

def NAMESPACE_4567_CHAR_COST : ℕ := 4 * SATOSHIS_PER_BTC

/-- `0.4 * SATOSHIS_PER_BTC`: the Python value is the float `40000000.0`,
which is exactly the integer 40000000. -/
def NAMESPACE_8UP_CHAR_COST : ℕ := 40000000

def TESTSET_NAMESPACE_1_CHAR_COST : ℕ := 10000

def TESTSET_NAMESPACE_23_CHAR_COST : ℕ := 10000

def TESTSET_NAMESPACE_4567_CHAR_COST : ℕ := 10000

def TESTSET_NAMESPACE_8UP_CHAR_COST : ℕ := 10000

/-- `LENGTHS['blockchain_id_name']` -/
def blockchain_id_name_len : ℕ := 37

/-- `LENGTHS['preorder_name_hash']` -/
def preorder_name_hash_len : ℕ := 20

/-- `LENGTHS['consensus_hash']` -/
def consensus_hash_len : ℕ := 16

/-- `LENGTHS['name_hash']` -/
def name_hash_len : ℕ := 16

/-- `LENGTHS['blockchain_id_namespace_id']` -/
def blockchain_id_namespace_id_len : ℕ := 19

/-- `MIN_OP_LENGTHS['namespace_reveal'] = 4 + 1 + 1 + 8 + 1 + 2 + 1` -/
def min_op_length_namespace_reveal : ℕ := 18

/-- `TRANSFER_KEEP_DATA = '>'`, as a byte value. -/
def TRANSFER_KEEP_DATA : ℕ := 62

/-- `TRANSFER_REMOVE_DATA = '~'`, as a byte value. -/
def TRANSFER_REMOVE_DATA : ℕ := 126

/-! ### Base-40 names (`lib/b40.py`, modelled from the spec) -/

/-- Modelled from the spec: `is_b40` lives in `lib/b40.py`, which is not under
`src/`.  The spec fixes the base-40 alphabet as "0–9, a–z, `-`, `_`, `.`,
`+`"; `is_b40 s` holds when every byte of `s` is in that alphabet (so the
empty string is base-40). -/
def b40_chars : List Char := "0123456789abcdefghijklmnopqrstuvwxyz-_.+".toList

/-- Modelled from the spec: the base-40 test on a byte string (see
`b40_chars`). -/
def is_b40 (s : List Char) : Bool := s.all (fun c => b40_chars.contains c)

/-! ### `lib/scripts.py`: name validity, namespace extraction, pricing -/

/-- `is_name_valid` from `lib/scripts.py`.  The Python
`name, namespace_id = fqn.split(".")` (executed when `fqn` has exactly one
`'.'`) yields the part before and the part after that dot; we extract those
two parts with `takeWhile`/`dropWhile`.  The final test
`len(hexlify(fqn)) > LENGTHS['blockchain_id_name'] * 2` is
`2 * fqn.length > 2 * 37`. -/
def is_name_valid (fqn : List Char) : Bool :=
  if fqn.count '.' ≠ 1 then false
  else
    let name := fqn.takeWhile (fun c => c ≠ '.')
    let namespace_id := (fqn.dropWhile (fun c => c ≠ '.')).tail
    if name.length = 0 ∨ namespace_id.length = 0 then false
    else if ¬ is_b40 name ∨ name.contains '+' ∨ name.contains '.' then false
    else if ¬ is_b40 namespace_id ∨ namespace_id.contains '+' ∨ namespace_id.contains '.' then false
    else if 2 * fqn.length > blockchain_id_name_len * 2 then false
    else true

/-- `get_namespace_from_name` from `lib/scripts.py`: the characters after the
last `'.'` (`name.split(".")[-1]`), or `[]` when there is no dot. -/
def get_namespace_from_name (name : List Char) : List Char :=
  if name.contains '.' then (name.splitOn '.').getLastD [] else []

/-- Namespace pricing parameters, as read out of a namespace record by
`price_name` (`namespace['base']` and so on). -/
structure NamespaceParams where
  base : ℕ
  coeff : ℕ
  buckets : List ℕ
  nonalpha_discount : ℕ
  no_vowel_discount : ℕ
  deriving Repr, DecidableEq

/-- The bucket-exponent selection of `price_name`:
`buckets[len(name)-1] if len(name) < len(buckets) else buckets[-1]`.
Python's `buckets[-1]` (reached for the empty name, whose index
`len(name)-1` is `-1`, and for long names) is the last element. -/
def price_bucket_exponent (name : List Char) (buckets : List ℕ) : ℕ :=
  if name.length < buckets.length then
    if name.length = 0 then buckets.getLastD 0 else buckets.getD (name.length - 1) 0
  else buckets.getLastD 0

def price_vowels : List Char := ['a', 'e', 'i', 'o', 'u', 'y']

def price_nonalpha_chars : List Char :=
  ['0', '1', '2', '3', '4', '5', '6', '7', '8', '9', '-', '_']

/-- `sum(name.lower().count(v) for v in ["a","e","i","o","u","y"]) == 0` -/
def price_has_no_vowel (name : List Char) : Bool :=
  (price_vowels.map (fun v => (name.map Char.toLower).count v)).sum = 0

/-- `sum(name.lower().count(v) for v in ["0",...,"9","-","_"]) > 0` -/
def price_has_nonalpha (name : List Char) : Bool :=
  (price_nonalpha_chars.map (fun v => (name.map Char.toLower).count v)).sum > 0

/-- The discount accumulated by `price_name`: it starts at `1`, is raised to
`no_vowel_discount` when the name has no vowel, and then to
`nonalpha_discount` when the name has a digit, `-` or `_`. -/
def price_discount (name : List Char) (ns : NamespaceParams) : ℕ :=
  let d1 : ℕ := if price_has_no_vowel name then max 1 ns.no_vowel_discount else 1
  if price_has_nonalpha name then max d1 ns.nonalpha_discount else d1

/-- `price_name` from `lib/scripts.py`.  The Python computes
`price = (float(coeff * base**bucket_exponent) / float(discount)) * NAME_COST_UNIT`,
replaces it by `NAME_COST_UNIT` when it is below `NAME_COST_UNIT`, and
returns `int(price)`.  The source's IEEE-754 double arithmetic is embedded
as exact rational arithmetic; the two coincide exactly on the domain where
every double operation above is exact, namely when
`coeff * base ^ bucket_exponent * NAME_COST_UNIT ≤ 2^53` and the discount
is a power of two (1, 2, 4 or 8):
* `float(coeff * base**bucket_exponent)` is exact because the integer is
  at most `2^53`;
* division by a power-of-two discount only shifts the exponent (the
  quotient is at least `2^-3`, far above the subnormal range), so it is
  exact;
* the multiplication by `NAME_COST_UNIT = 100` is exact because the exact
  product is the integer `coeff * base^bucket * 100 ≤ 2^53` scaled by
  `2^-k`, `k ≤ 3`, hence representable;
* `int` of the exact nonnegative result is `Nat.floor`.
Outside that domain the doubles round (already `float(coeff*base**bucket)`
rounds once the product exceeds `2^53`) and the source deviates from every
exact formula, so the theorems about `price_name` below restrict to this
exact domain. -/
def price_name (name : List Char) (ns : NamespaceParams) : ℕ :=
  let bucket_exponent := price_bucket_exponent name ns.buckets
  let discount := price_discount name ns
  let price : ℚ :=
    ((ns.coeff * ns.base ^ bucket_exponent : ℕ) : ℚ) / (discount : ℚ) * (NAME_COST_UNIT : ℚ)
  if price < (NAME_COST_UNIT : ℚ) then NAME_COST_UNIT else ⌊price⌋₊

/-- `price_namespace` from `lib/scripts.py`; `testset` is the configuration
flag the Python reads from `default_blockstack_opts`. -/
def price_namespace (testset : Bool) (namespace_id : List Char) : ℕ :=
  if namespace_id.length = 1 then
    if testset then TESTSET_NAMESPACE_1_CHAR_COST else NAMESPACE_1_CHAR_COST
  else if namespace_id.length = 2 ∨ namespace_id.length = 3 then
    if testset then TESTSET_NAMESPACE_23_CHAR_COST else NAMESPACE_23_CHAR_COST
  else if namespace_id.length = 4 ∨ namespace_id.length = 5 ∨
          namespace_id.length = 6 ∨ namespace_id.length = 7 then
    if testset then TESTSET_NAMESPACE_4567_CHAR_COST else NAMESPACE_4567_CHAR_COST
  else
    if testset then TESTSET_NAMESPACE_8UP_CHAR_COST else NAMESPACE_8UP_CHAR_COST

/-! ### Hex encoding (`binascii.hexlify` / `unhexlify`) -/

/-- The sixteen lowercase hex digits, in order. -/
def lower_hex_digits : List Char := "0123456789abcdef".toList

/-- The value of one hex digit (upper or lower case), or `none`. -/
def hex_digit_val (c : Char) : Option ℕ :=
  if c = '0' then some 0 else if c = '1' then some 1
  else if c = '2' then some 2 else if c = '3' then some 3
  else if c = '4' then some 4 else if c = '5' then some 5
  else if c = '6' then some 6 else if c = '7' then some 7
  else if c = '8' then some 8 else if c = '9' then some 9
  else if c = 'a' ∨ c = 'A' then some 10 else if c = 'b' ∨ c = 'B' then some 11
  else if c = 'c' ∨ c = 'C' then some 12 else if c = 'd' ∨ c = 'D' then some 13
  else if c = 'e' ∨ c = 'E' then some 14 else if c = 'f' ∨ c = 'F' then some 15
  else none

/-- `binascii.unhexlify`: a hex string of even length to bytes; `none` models
the `TypeError` raised on odd length or a non-hex character. -/
def unhexlify : List Char → Option (List ℕ)
  | [] => some []
  | [_] => none
  | c1 :: c2 :: rest => do
      let hi ← hex_digit_val c1
      let lo ← hex_digit_val c2
      let tail ← unhexlify rest
      pure ((16 * hi + lo) :: tail)

/-- One byte to its two lowercase hex digits. -/
def hexlify_byte (b : ℕ) : List Char :=
  [lower_hex_digits.getD (b / 16 % 16) '0', lower_hex_digits.getD (b % 16) '0']

/-- `binascii.hexlify`: bytes to a lowercase hex string. -/
def hexlify (bs : List ℕ) : List Char := (bs.map hexlify_byte).flatten

/-- A lowercase hex string (the form produced by `hexlify` and by the hex
digests the system passes around). -/
def is_lower_hex (s : List Char) : Bool := s.all (fun c => lower_hex_digits.contains c)

/-! ### Fixed-width big-endian integers (`serialize_int` / `int(hexlify(…), 16)`) -/

/-- The `k` big-endian bytes of `n` (the byte form of `serialize_int n k`,
defined for `n < 2^(8*k)`). -/
def bytes_of_nat : ℕ → ℕ → List ℕ
  | 0, _ => []
  | k + 1, n => bytes_of_nat k (n / 256) ++ [n % 256]

/-- The integer denoted by big-endian bytes
(`int(hexlify(bs), 16)` for a nonempty `bs`). -/
def nat_of_bytes (bs : List ℕ) : ℕ := bs.foldl (fun a b => a * 256 + b) 0

/-- Pack a list of nibbles (each `< 16`) into bytes, two per byte; this is
the byte form of `serialize_buckets` / `serialize_discounts`. -/
def pack_nibbles : List ℕ → List ℕ
  | [] => []
  | [n] => [n * 16]
  | n1 :: n2 :: rest => (n1 * 16 + n2) :: pack_nibbles rest

/-- Unpack bytes into nibbles: the nibble list denoted by
`[int(x, 16) for x in list(hexlify(bs))]`. -/
def unpack_nibbles (bs : List ℕ) : List ℕ :=
  (bs.map (fun b => [b / 16 % 16, b % 16])).flatten

/-- Bytes of a Python 2 `str` (one byte per character; the payloads here are
ASCII, being base-40). -/
def bytes_of_chars (s : List Char) : List ℕ := s.map Char.toNat

/-- Characters of a byte string. -/
def chars_of_bytes (bs : List ℕ) : List Char := bs.map Char.ofNat

/-! ### NAME_PREORDER wire format (`lib/operations/preorder.py`) -/

/-- The result of `preorder.parse` (the `opcode` field is the constant
`'NAME_PREORDER'` and is omitted). -/
structure PreorderParsed where
  preorder_hash : List Char
  consensus_hash : List Char
  deriving Repr, DecidableEq

/-- `preorder.parse`: reject unless the payload is exactly 20 + 16 bytes,
then hexlify the two fields. -/
def preorder_parse (bin_payload : List ℕ) : Option PreorderParsed :=
  if bin_payload.length ≠ preorder_name_hash_len + consensus_hash_len then none
  else some
    { preorder_hash := hexlify (bin_payload.take preorder_name_hash_len)
      consensus_hash := hexlify (bin_payload.drop preorder_name_hash_len) }

/-- The payload built by `preorder.build` when called with an explicit
`name_hash` (hex) and `consensus_hash` (hex), minus the 3-byte magic/opcode
prefix: `blockstack_script_to_hex` emits the two `0x…` arguments verbatim, so
the payload is `unhexlify(name_hash + consensus_hash)` (`none` models the
failure of the later `unhexlify` when the arguments are not hex). -/
def preorder_build_payload (name_hash consensus_hash : List Char) : Option (List ℕ) :=
  unhexlify (name_hash ++ consensus_hash)

/-! ### NAME_TRANSFER wire format (blockstack and blockstore versions) -/

/-- The result of `transfer.parse` in `blockstack/lib/operations`
(`opcode` omitted as above). -/
structure TransferParsed where
  name_hash128 : List Char
  consensus_hash : List Char
  recipient : List Char
  keep_data : Bool
  deriving Repr, DecidableEq

/-- `transfer.parse` from `blockstack/lib/operations/transfer.py`: reject
unless the payload is exactly `1 + 16 + 16` bytes and the disposition byte is
`'>'` or `'~'`.  (`transfer_sanity_check(None, consensus_hash)` always
returns `True`: both of its guards are conditional on `name is not None`.) -/
def transfer_parse (bin_payload : List ℕ) (recipient : List Char) : Option TransferParsed :=
  if bin_payload.length ≠ 1 + name_hash_len + consensus_hash_len then none
  else
    let disposition_char := bin_payload.take 1
    let name_hash128 := (bin_payload.drop 1).take name_hash_len
    let consensus_hash := bin_payload.drop (1 + name_hash_len)
    if disposition_char ≠ [TRANSFER_REMOVE_DATA] ∧ disposition_char ≠ [TRANSFER_KEEP_DATA] then
      none
    else some
      { name_hash128 := hexlify name_hash128
        consensus_hash := hexlify consensus_hash
        recipient := recipient
        keep_data := disposition_char ≠ [TRANSFER_REMOVE_DATA] }

/-- The result of `transfer.parse` in `blockstore/lib/operations` (its name
hash field is called `name_hash`). -/
structure BlockstoreTransferParsed where
  name_hash : List Char
  consensus_hash : List Char
  recipient : List Char
  keep_data : Bool
  deriving Repr, DecidableEq

/-- `transfer.parse` from `blockstore/lib/operations/transfer.py`: no length
check and no disposition check; `keep_data` defaults to `True` and is `False`
exactly when the first byte equals `'~'`. -/
def blockstore_transfer_parse (bin_payload : List ℕ) (recipient : List Char) :
    BlockstoreTransferParsed :=
  { name_hash := hexlify ((bin_payload.drop 1).take name_hash_len)
    consensus_hash := hexlify (bin_payload.drop (1 + name_hash_len))
    recipient := recipient
    keep_data := bin_payload.take 1 ≠ [TRANSFER_REMOVE_DATA] }

/-! ### NAMESPACE_REVEAL wire format (`lib/operations/namespacereveal.py`) -/

/-- `namespacereveal_sanity_check`: `true` when the check returns `True`,
`false` when it raises.  The source's handling of an out-of-range `lifetime`
(`lifetime = NAMESPACE_LIFE_INFINITE`) assigns to a local variable only and
cannot fail, so it has no effect on the result; `version` is not examined at
all. -/
def namespacereveal_sanity_check (namespace_id : List Char) (version : ℕ)
    (lifetime coeff base : ℕ) (bucket_exponents : List ℕ)
    (nonalpha_discount no_vowel_discount : ℕ) : Bool :=
  if ¬ is_b40 namespace_id ∨ namespace_id.contains '+' ∨ namespace_id.count '.' > 0 then false
  else if namespace_id.length > blockchain_id_namespace_id_len then false
  else if coeff > 255 then false
  else if base > 255 then false
  else if bucket_exponents.length ≠ 16 then false
  else if ¬ bucket_exponents.all (fun b => b ≤ 15) then false
  else if nonalpha_discount = 0 ∨ nonalpha_discount > 15 then false
  else if no_vowel_discount = 0 ∨ no_vowel_discount > 15 then false
  else true

/-- The payload built by `namespacereveal.build`, minus the 3-byte
magic/opcode prefix, in byte form (`blockstack_script_to_hex` concatenates
the hex fields emitted by `serialize_int` / `serialize_buckets` /
`serialize_discounts` / `hexlify(namespace_id)`, and the payload is the
`unhexlify` of that).  `none` models an exception: either the sanity check
raised, or `serialize_int` overflowed on `lifetime` (4 bytes) or `version`
(2 bytes), neither of which the sanity check bounds.  After the sanity
check the discounts are below 16, so `serialize_discounts` packs them into
one byte. -/
def namespacereveal_build_payload (namespace_id : List Char) (version : ℕ)
    (lifetime coeff base : ℕ) (bucket_exponents : List ℕ)
    (nonalpha_discount no_vowel_discount : ℕ) : Option (List ℕ) :=
  if ¬ namespacereveal_sanity_check namespace_id version lifetime coeff base
      bucket_exponents nonalpha_discount no_vowel_discount then none
  else if lifetime ≥ 2 ^ 32 ∨ version ≥ 2 ^ 16 then none
  else some
    (bytes_of_nat 4 lifetime ++ bytes_of_nat 1 coeff ++ bytes_of_nat 1 base ++
      pack_nibbles bucket_exponents ++
      [nonalpha_discount * 16 + no_vowel_discount] ++
      bytes_of_nat 2 version ++ bytes_of_chars namespace_id)

/-- The fields recovered by `namespacereveal.parse`.  The derived
`preorder_hash = hash_name(namespace_id, sender_script, recipient_address)`
field is omitted: `hash_name` (in `lib/hashing.py`, not under `src/`) is a
RIPEMD160/SHA256 digest that does not fail on string inputs, and no claim
here concerns its value. -/
structure NsRevealParsed where
  lifetime : ℕ
  coeff : ℕ
  base : ℕ
  buckets : List ℕ
  version : ℕ
  nonalpha_discount : ℕ
  no_vowel_discount : ℕ
  namespace_id : List Char
  deriving Repr, DecidableEq

/-- The three ways `namespacereveal.parse` can come out: it *raises*
(`AssertionError`) on payloads shorter than `MIN_OP_LENGTHS['namespace_reveal']`,
returns `None` when the re-run sanity check fails, or returns the parsed
fields. -/
inductive NsRevealParseOutcome where
  | throws
  | rejects
  | ok (r : NsRevealParsed)
  deriving Repr, DecidableEq

/-- `namespacereveal.parse` (payload bytes are `< 256`; the numeric fields
are read back with `int(hexlify(...), 16)`, i.e. big-endian). -/
def namespacereveal_parse (bin_payload : List ℕ) : NsRevealParseOutcome :=
  if bin_payload.length < min_op_length_namespace_reveal then .throws
  else
    let life := nat_of_bytes (bin_payload.take 4)
    let coeff := nat_of_bytes ((bin_payload.drop 4).take 1)
    let base := nat_of_bytes ((bin_payload.drop 5).take 1)
    let buckets := unpack_nibbles ((bin_payload.drop 6).take 8)
    let discount_byte := ((bin_payload.drop 14).take 1).headD 0
    let nonalpha_discount := discount_byte / 16 % 16
    let no_vowel_discount := discount_byte % 16
    let version := nat_of_bytes ((bin_payload.drop 15).take 2)
    let namespace_id := chars_of_bytes (bin_payload.drop 17)
    if ¬ namespacereveal_sanity_check namespace_id version life coeff base buckets
        nonalpha_discount no_vowel_discount then .rejects
    else .ok
      { lifetime := life, coeff := coeff, base := base, buckets := buckets
        version := version, nonalpha_discount := nonalpha_discount
        no_vowel_discount := no_vowel_discount, namespace_id := namespace_id }

/-! ### NAMESPACE_REVEAL `check` (`lib/operations/namespacereveal.py`) -/

/-- The namespace-preorder record consulted by the NAMESPACE_REVEAL check
(`state_engine.get_namespace_preorder`).  `op_fee` is optional because the
check tests `'op_fee' in namespace_preorder`. -/
structure NsPreorderRec where
  sender : List Char
  op_fee : Option ℕ
  block_number : ℕ
  deriving Repr, DecidableEq

/-- The state-engine queries made by the NAMESPACE_REVEAL check, embedded as
explicit functions. -/
structure RevealState where
  is_namespace_revealed : List Char → Bool
  is_namespace_ready : List Char → Bool
  get_namespace_preorder : List Char → Option NsPreorderRec

/-- A parsed NAMESPACE_REVEAL nameop as seen by `check` (fields extracted by
`tx_extract` are optional because the check tests `has_key`). -/
structure RevealOp where
  namespace_id : List Char
  preorder_hash : List Char
  sender : List Char
  sender_pubkey : Option (List Char)
  recipient : Option (List Char)
  recipient_address : Option (List Char)
  version : ℕ
  deriving Repr, DecidableEq

/-- `check` from `lib/operations/namespacereveal.py` (its state mutations —
`block_number`, `reveal_block`, `ready_block`, `op_fee` — only run on
acceptance and are not modelled; `testset` parameterizes the configuration
read by `price_namespace`).

NOTE (faithful to the source): in the branch comparing the preorder's sender
with the reveal's sender, the source only logs — there is no `return False`
— so a sender mismatch does **not** reject the reveal. -/
def namespacereveal_check (testset : Bool) (st : RevealState) (op : RevealOp)
    (_block_id : ℕ) : Bool :=
  if op.sender_pubkey.isNone then false
  else if op.recipient.isNone then false
  else if op.recipient_address.isNone then false
  else if ¬ is_b40 op.namespace_id ∨ op.namespace_id.contains '+' ∨
          op.namespace_id.count '.' > 0 then false
  else if st.is_namespace_revealed op.namespace_id then false
  else if st.is_namespace_ready op.namespace_id then false
  else
    match st.get_namespace_preorder op.preorder_hash with
    | none => false
    | some namespace_preorder =>
      -- source: `if namespace_preorder['sender'] != sender:` only logs here
      if op.version ≠ BLOCKSTACK_VERSION then false
      else
        match namespace_preorder.op_fee with
        | none => false
        | some namespace_fee =>
          if namespace_fee < price_namespace testset op.namespace_id then false
          else true

/-! ### NAME_PREORDER `check` (`lib/operations/preorder.py`) -/

/-- The state-engine queries made by the NAME_PREORDER check.  `names_owned`
backs the spec-modelled `get_num_names_owned` below. -/
structure PreorderState where
  is_new_preorder : List Char → Bool
  is_consensus_hash_valid : ℕ → List Char → Bool
  names_owned : List Char → ℕ

/-- Modelled from the spec: `get_num_names_owned` is defined in
`lib/operations/register.py`, which is not under `src/`.  Per the spec, the
quota counts a sender's active (registered) names only — "counting pending
preorders as zero ... quota applies on registration" — so it is the number
of names currently owned by the sender script; the `checked_ops` argument of
the source contributes nothing at preorder time and is dropped. -/
def get_num_names_owned (st : PreorderState) (sender : List Char) : ℕ :=
  st.names_owned sender

/-- A parsed NAME_PREORDER nameop as seen by `check`. -/
structure PreorderOp where
  preorder_hash : List Char
  consensus_hash : List Char
  sender : List Char
  op_fee : Option ℕ
  deriving Repr, DecidableEq

/-- `check` from `lib/operations/preorder.py`. -/
def preorder_check (st : PreorderState) (op : PreorderOp) (block_id : ℕ) : Bool :=
  if ¬ st.is_new_preorder op.preorder_hash then false
  else if ¬ st.is_consensus_hash_valid block_id op.consensus_hash then false
  else if get_num_names_owned st op.sender ≥ MAX_NAMES_PER_SENDER then false
  else if op.op_fee.isNone then false
  else true

/-! ### NAME_TRANSFER `check` (`blockstack/lib/operations/transfer.py`) -/

/-- The slice of a name record read by the NAME_TRANSFER check. -/
structure NameRec where
  value_hash : Option (List Char)
  consensus_hash : List Char
  deriving Repr, DecidableEq

/-- The state-engine queries made by the NAME_TRANSFER check. -/
structure TransferState where
  get_name_from_name_hash128 : List Char → Option (List Char)
  get_name : List Char → Option NameRec
  is_namespace_ready : List Char → Bool
  is_name_revoked : List Char → Bool
  is_name_expired : List Char → ℕ → Bool
  lastblock : ℕ
  is_consensus_hash_valid : ℕ → List Char → Bool
  is_name_registered : List Char → Bool
  is_name_owner : List Char → List Char → Bool
  get_names_owned_by_sender : List Char → List (List Char)
  get_block_from_consensus : List Char → Option ℕ

/-- A parsed NAME_TRANSFER nameop as seen by `check`: the payload fields from
`parse` plus the `sender`/`recipient`/`recipient_address` extracted from the
transaction by `tx_extract` (the recipient script is the first
non-`OP_RETURN` output, the sender script the first input). -/
structure TransferOp where
  name_hash128 : List Char
  consensus_hash : List Char
  keep_data : Bool
  sender : List Char
  recipient : List Char
  recipient_address : List Char
  deriving Repr, DecidableEq

/-- The nameop fields as mutated by an accepting run of the NAME_TRANSFER
check — the record that `commit` then stores. -/
structure TransferCommit where
  name : List Char
  sender : List Char
  address : List Char
  sender_pubkey : Option (List Char)
  consensus_hash : List Char
  transfer_send_block_id : ℕ
  value_hash : Option (List Char)
  op : List Char
  deriving Repr, DecidableEq

/-- `check` from `blockstack/lib/operations/transfer.py`.  The source
returns `True`/`False` and communicates the committed fields by mutating
`nameop`; this is embedded as `Option TransferCommit` (`none` = `False`). -/
def transfer_check (st : TransferState) (op : TransferOp) (block_id : ℕ) :
    Option TransferCommit :=
  match st.get_name_from_name_hash128 op.name_hash128 with
  | none => none
  | some name =>
    let namespace_id := get_namespace_from_name name
    match st.get_name name with
    | none => none
    | some name_rec =>
      if ¬ st.is_namespace_ready namespace_id then none
      else if st.is_name_revoked name then none
      else if st.is_name_expired name st.lastblock then none
      else if ¬ st.is_consensus_hash_valid block_id op.consensus_hash then none
      else if op.sender = op.recipient then none
      else if ¬ st.is_name_registered name then none
      else if ¬ st.is_name_owner name op.sender then none
      else
        let names_owned := st.get_names_owned_by_sender op.recipient
        if name ∈ names_owned then none
        else if names_owned.length ≥ MAX_NAMES_PER_SENDER then none
        else
          match st.get_block_from_consensus op.consensus_hash with
          | none => none
          | some transfer_send_block_id =>
            some
              { name := name
                sender := op.recipient
                address := op.recipient_address
                sender_pubkey := none
                -- QUIRK preserved from the source: the committed
                -- consensus_hash is the *previous* record's
                consensus_hash := name_rec.consensus_hash
                transfer_send_block_id := transfer_send_block_id
                value_hash := if ¬ op.keep_data then none else name_rec.value_hash
                op := if ¬ op.keep_data then ['>', '~'] else ['>', '>'] }

/-! ### The claim's price formula (for comparison with `price_name`) -/

/-- The per-name price exactly as the claim words it:
`max(NAME_COST_UNIT, floor(coeff * base^bucket / discount) * NAME_COST_UNIT)`
with `bucket = buckets[min(len(name)-1, 15)]` and the same discount rule as
the source (`price_discount`). -/
def claim_price_name (name : List Char) (ns : NamespaceParams) : ℕ :=
  max NAME_COST_UNIT
    (ns.coeff * ns.base ^ (ns.buckets.getD (min (name.length - 1) 15) 0) /
        price_discount name ns * NAME_COST_UNIT)

/-! ### Concrete instances used by witnesses and counterexamples -/

/-- C1: a namespace preorder paid for by `preorderer`. -/
def c1_preorder : NsPreorderRec :=
  { sender := "preorderer".toList, op_fee := some 400000000, block_number := 100 }

/-- C1: a state in which preorder hash `h1` names `c1_preorder`. -/
def c1_state : RevealState :=
  { is_namespace_revealed := fun _ => false
    is_namespace_ready := fun _ => false
    get_namespace_preorder := fun h => if h = "h1".toList then some c1_preorder else none }

/-- C1: a NAMESPACE_REVEAL for `test` sent by `attacker`, who is not the
preorderer. -/
def c1_op : RevealOp :=
  { namespace_id := "test".toList, preorder_hash := "h1".toList
    sender := "attacker".toList, sender_pubkey := some "pk".toList
    recipient := some "r-script".toList, recipient_address := some "r-addr".toList
    version := 1 }

/-- C2: a namespace whose parameters satisfy the claim's sanity bounds and
whose price for the name `"1"` distinguishes the two floor placements
(`7 / 2 * 100`). -/
def c2_namespace : NamespaceParams :=
  { base := 2, coeff := 7, buckets := List.replicate 16 0
    nonalpha_discount := 2, no_vowel_discount := 2 }

/-- C2: the namespace of the spec's concrete scenario
(`coeff=4, base=4, buckets=[6,5,4,3,3,3,3,2,2,2,1,1,1,1,1,1]`, both
discounts 10). -/
def c2_test_namespace : NamespaceParams :=
  { base := 4, coeff := 4, buckets := [6, 5, 4, 3, 3, 3, 3, 2, 2, 2, 1, 1, 1, 1, 1, 1]
    nonalpha_discount := 10, no_vowel_discount := 10 }

/-- C4: a namespace preorder that underpaid (1 satoshi). -/
def c4_preorder : NsPreorderRec :=
  { sender := "s".toList, op_fee := some 1, block_number := 100 }

/-- C4: a state holding the underpaid preorder `c4_preorder` under hash `h4`. -/
def c4_state : RevealState :=
  { is_namespace_revealed := fun _ => false
    is_namespace_ready := fun _ => false
    get_namespace_preorder := fun h => if h = "h4".toList then some c4_preorder else none }

/-- C4: a NAMESPACE_REVEAL for `cost` whose preorder underpaid. -/
def c4_op : RevealOp :=
  { namespace_id := "cost".toList, preorder_hash := "h4".toList
    sender := "s".toList, sender_pubkey := some "pk".toList
    recipient := some "r-script".toList, recipient_address := some "r-addr".toList
    version := 1 }

/-- C5/C9: the prior record of `alice.test` (owned value hash `aa`). -/
def c5_name_rec : NameRec :=
  { value_hash := some "aa".toList, consensus_hash := "ch-old".toList }

/-- C5/C9: a state in which `alice.test` is live, registered, owned by
`owner-script`, and `new-owner-script` owns nothing. -/
def c5_state : TransferState :=
  { get_name_from_name_hash128 := fun h =>
      if h = "nh".toList then some "alice.test".toList else none
    get_name := fun n => if n = "alice.test".toList then some c5_name_rec else none
    is_namespace_ready := fun n => n = "test".toList
    is_name_revoked := fun _ => false
    is_name_expired := fun _ _ => false
    lastblock := 130
    is_consensus_hash_valid := fun _ c => c = "ch-129".toList
    is_name_registered := fun n => n = "alice.test".toList
    is_name_owner := fun n s => n = "alice.test".toList ∧ s = "owner-script".toList
    get_names_owned_by_sender := fun _ => []
    get_block_from_consensus := fun c => if c = "ch-129".toList then some 129 else none }

/-- C5: a drop-data transfer of `alice.test` from `owner-script` to
`new-owner-script`. -/
def c5_op : TransferOp :=
  { name_hash128 := "nh".toList, consensus_hash := "ch-129".toList, keep_data := false
    sender := "owner-script".toList, recipient := "new-owner-script".toList
    recipient_address := "new-owner-addr".toList }

/-- C9: the same transfer but sent to the current owner by itself
(sender script = recipient script); every other precondition holds. -/
def c9_op : TransferOp :=
  { name_hash128 := "nh".toList, consensus_hash := "ch-129".toList, keep_data := true
    sender := "owner-script".toList, recipient := "owner-script".toList
    recipient_address := "owner-addr".toList }

/-- C5: the record committed by the accepting run of `transfer_check` on
`c5_state`/`c5_op`. -/
def c5_commit : TransferCommit :=
  { name := "alice.test".toList, sender := "new-owner-script".toList
    address := "new-owner-addr".toList, sender_pubkey := none
    consensus_hash := "ch-old".toList, transfer_send_block_id := 129
    value_hash := none, op := ['>', '~'] }

/-- C10: a 33-byte payload whose first byte `'x'` is neither `'>'` nor
`'~'`. -/
def c10_payload : List ℕ := 120 :: List.replicate 32 0

/-! ## Supporting lemmas -/

theorem price_discount_pos (name : List Char) (ns : NamespaceParams) :
    1 ≤ price_discount name ns := by
  unfold price_discount
  split_ifs <;> simp

/-- The `if`/floor arithmetic at the heart of the rational model
`price_name`, in closed form. -/
theorem price_if_floor_eq (c b e d : ℕ) (hd : 1 ≤ d) :
    (if ((c * b ^ e : ℕ) : ℚ) / (d : ℚ) * (NAME_COST_UNIT : ℚ) < (NAME_COST_UNIT : ℚ)
     then NAME_COST_UNIT
     else ⌊((c * b ^ e : ℕ) : ℚ) / (d : ℚ) * (NAME_COST_UNIT : ℚ)⌋₊) =
      max NAME_COST_UNIT (c * b ^ e * NAME_COST_UNIT / d) := by
  have hcast :
      ((c * b ^ e : ℕ) : ℚ) / (d : ℚ) * (NAME_COST_UNIT : ℚ) =
        ((c * b ^ e * NAME_COST_UNIT : ℕ) : ℚ) / (d : ℚ) := by
    push_cast
    ring
  rw [hcast]
  have hfloor :
      ⌊((c * b ^ e * NAME_COST_UNIT : ℕ) : ℚ) / (d : ℚ)⌋₊ =
        c * b ^ e * NAME_COST_UNIT / d :=
    Rat.natFloor_natCast_div_natCast _ _
  split_ifs with hlt
  · have h0 : (0 : ℚ) ≤ ((c * b ^ e * NAME_COST_UNIT : ℕ) : ℚ) / (d : ℚ) := by positivity
    have hx : c * b ^ e * NAME_COST_UNIT / d < NAME_COST_UNIT := by
      rw [← hfloor]
      exact (Nat.floor_lt h0).2 (by exact_mod_cast hlt)
    omega
  · push_neg at hlt
    have hx : NAME_COST_UNIT ≤ c * b ^ e * NAME_COST_UNIT / d := by
      rw [← hfloor]
      exact Nat.le_floor (by exact_mod_cast hlt)
    rw [hfloor]
    omega

/-- The closed form of the rational model `price_name`: the floor is taken
*after* multiplying by `NAME_COST_UNIT`, so the result is
`max 100 (coeff * base^bucket * 100 / discount)` (natural division). -/
theorem price_name_eq (name : List Char) (ns : NamespaceParams) :
    price_name name ns =
      max NAME_COST_UNIT
        (ns.coeff * ns.base ^ price_bucket_exponent name ns.buckets * NAME_COST_UNIT /
          price_discount name ns) := by
  unfold price_name
  dsimp only
  exact price_if_floor_eq ns.coeff ns.base (price_bucket_exponent name ns.buckets)
    (price_discount name ns) (price_discount_pos name ns)

/-- With a 16-entry bucket list and a nonempty name, the source's bucket
selection equals the claim's `buckets[min(len(name)-1, 15)]`. -/
theorem price_bucket_exponent_eq_getD (name : List Char) (buckets : List ℕ)
    (h16 : buckets.length = 16) (hne : name ≠ []) :
    price_bucket_exponent name buckets = buckets.getD (min (name.length - 1) 15) 0 := by
  have hlen : name.length ≠ 0 := by
    simpa using List.length_pos.2 hne |>.ne'
  have hlast : buckets.getLastD 0 = buckets.getD 15 0 := by
    rcases buckets with _ | ⟨a, rest⟩
    · simp at h16
    · rw [List.getLastD_eq_getLast?, List.getLast?_eq_getElem?, List.getD_eq_getElem?_getD]
      congr 1
      simp only [List.length_cons] at h16
      simp [h16]
  unfold price_bucket_exponent
  by_cases hlt : name.length < buckets.length
  · rw [if_pos hlt, if_neg hlen]
    have : min (name.length - 1) 15 = name.length - 1 := by omega
    rw [this]
  · rw [if_neg hlt]
    have : min (name.length - 1) 15 = 15 := by omega
    rw [this, hlast]

/-! ## C2 -/

/-- **C2 (counterexample).** The claim's formula floors *before* multiplying
by `NAME_COST_UNIT`; the source floors *after*.  For the namespace with
`coeff = 7`, `base = 2`, all buckets `0` and both discounts `2` (all within
the claim's sanity bounds), the name `"1"` (no vowel, non-alpha, so
discount 2) costs `int((7/2)*100) = 350` in the source, while the claim's
`floor(7/2)*100` is `300`.  At these inputs the source's double arithmetic
is exact (`7`, `7/2 = 3.5` and `350` are exactly representable: the product
`700 ≤ 2^53` and the discount `2` is a power of two), so the rational
evaluation is the source's evaluation. -/
theorem price_name_claim_formula_counterexample :
    price_name "1".toList c2_namespace = 350 ∧
    claim_price_name "1".toList c2_namespace = 300 ∧
    price_name "1".toList c2_namespace ≠ claim_price_name "1".toList c2_namespace := by
  refine ⟨?_, by decide, ?_⟩ <;> rw [price_name_eq] <;> decide

/-- **C2 (amended).** The claim's formula is wrong in two ways: the source
floors *after* multiplying by `NAME_COST_UNIT`, not before, and the source
computes in IEEE-754 doubles, which round once the numbers leave the exact
domain (see `price_name`).  On that exact domain — a nonempty name, a
namespace within the claim's sanity bounds,
`coeff * base^bucket * NAME_COST_UNIT ≤ 2^53`, and a discount of 1, 2, 4
or 8 — the price equals
`max(NAME_COST_UNIT, floor(coeff * base^bucket * NAME_COST_UNIT / discount))`
with `bucket = buckets[min(len(name)-1, 15)]` and the claim's discount rule
(`price_discount`); in particular the namespace with `coeff=4, base=4,
buckets=[6,5,4,3,3,3,3,2,2,2,1,1,1,1,1,1]` and both discounts 10 prices
`"alice"` at 25600 (there `coeff*base^bucket*100 = 25600 ≤ 2^53` and the
discount is 1, so the source's doubles are exact). -/
theorem price_name_floor_after_unit_and_alice :
    (∀ (name : List Char) (ns : NamespaceParams),
       ns.coeff ≤ 255 → ns.base ≤ 255 → ns.buckets.length = 16 →
       (∀ b ∈ ns.buckets, b ≤ 15) →
       1 ≤ ns.nonalpha_discount → ns.nonalpha_discount ≤ 15 →
       1 ≤ ns.no_vowel_discount → ns.no_vowel_discount ≤ 15 →
       name ≠ [] →
       ns.coeff * ns.base ^ (ns.buckets.getD (min (name.length - 1) 15) 0) *
           NAME_COST_UNIT ≤ 2 ^ 53 →
       (price_discount name ns = 1 ∨ price_discount name ns = 2 ∨
        price_discount name ns = 4 ∨ price_discount name ns = 8) →
       price_name name ns =
         max NAME_COST_UNIT
           (ns.coeff * ns.base ^ (ns.buckets.getD (min (name.length - 1) 15) 0) *
               NAME_COST_UNIT / price_discount name ns)) ∧
    price_name "alice".toList c2_test_namespace = 25600 := by
  constructor
  · intro name ns _ _ h16 _ _ _ _ _ hne _ _
    rw [price_name_eq, price_bucket_exponent_eq_getD name ns.buckets h16 hne]
  · rw [price_name_eq]
    decide

/-- **C2 (witness).** The amended formula evaluated at the counterexample's
namespace and the name `"1"` (product `700 ≤ 2^53`, discount `2`: inside
the float-exact domain). -/
theorem price_name_floor_after_unit_witness :
    price_name "1".toList c2_namespace =
      max NAME_COST_UNIT
        (c2_namespace.coeff * c2_namespace.base ^
            (c2_namespace.buckets.getD (min (("1".toList).length - 1) 15) 0) *
            NAME_COST_UNIT / price_discount "1".toList c2_namespace) :=
  price_name_floor_after_unit_and_alice.1 "1".toList c2_namespace (by decide) (by decide)
    (by decide) (by decide) (by decide) (by decide) (by decide) (by decide) (by decide)
    (by decide) (by decide)

/-! ## C1 -/

/-- **C1 (code bug).** The NAMESPACE_REVEAL check *accepts* a reveal whose
sender differs from the matching namespace preorder's sender: in `c1_state`
the unexpired preorder under hash `h1` was sent by `preorderer`, the reveal
`c1_op` is sent by `attacker`, every other precondition holds, and
`namespacereveal_check` returns `true`.  The source's sender-comparison
branch only logs — its `return False` is missing — contradicting both the
claim and the function's own docstring. -/
theorem namespacereveal_check_accepts_foreign_sender :
    c1_state.get_namespace_preorder c1_op.preorder_hash = some c1_preorder ∧
    c1_preorder.sender ≠ c1_op.sender ∧
    namespacereveal_check false c1_state c1_op 101 = true := by
  refine ⟨by decide, by decide, by decide⟩

/-! ## C3 -/

/-- **C3.** The NAME_PREORDER check accepts exactly when: the preorder hash
has no live preorder (`is_new_preorder`), the consensus hash is one the
engine has issued within the allowed window of the current block
(`is_consensus_hash_valid`), the sender's name count — counting pending
preorders as zero (`get_num_names_owned`, spec-modelled) — is below the
25-name quota, and the `op_fee` field is present. -/
theorem preorder_check_iff (st : PreorderState) (op : PreorderOp) (block_id : ℕ) :
    preorder_check st op block_id = true ↔
      (st.is_new_preorder op.preorder_hash = true ∧
       st.is_consensus_hash_valid block_id op.consensus_hash = true ∧
       get_num_names_owned st op.sender < MAX_NAMES_PER_SENDER ∧
       op.op_fee.isSome = true) := by
  unfold preorder_check
  split_ifs with h1 h2 h3 h4 <;>
    simp_all [Option.isNone_iff_eq_none, Option.isSome_iff_ne_none] <;>
    omega

/-! ## C9 -/

/-- **C9.** The NAME_TRANSFER check rejects every transfer whose sender
script equals the recipient script, whatever the rest of the state and
operation look like. -/
theorem transfer_check_rejects_self_transfer (st : TransferState) (op : TransferOp)
    (block_id : ℕ) (h : op.sender = op.recipient) :
    transfer_check st op block_id = none := by
  unfold transfer_check
  cases h1 : st.get_name_from_name_hash128 op.name_hash128 with
  | none => rfl
  | some name =>
    simp only []
    cases h2 : st.get_name name with
    | none => rfl
    | some name_rec =>
      simp only []
      split_ifs <;> simp_all

/-- **C9 (witness).** The self-transfer `c9_op` (sender = recipient =
`owner-script`, every other precondition satisfiable in `c5_state`) is
rejected. -/
theorem transfer_check_rejects_self_transfer_witness :
    c9_op.sender = c9_op.recipient ∧ transfer_check c5_state c9_op 130 = none :=
  ⟨by decide, transfer_check_rejects_self_transfer c5_state c9_op 130 (by decide)⟩

/-! ## C4 -/

/-- **C4.** On mainnet (`testset = false`) `price_namespace` returns
`400·10^8` satoshis for a 1-character namespace id, `40·10^8` for lengths
2–3, `4·10^8` for lengths 4–7 and `0.4·10^8 = 40000000` for lengths ≥ 8; on
testset it is a flat 10000; and the NAMESPACE_REVEAL check rejects a reveal
whose matching namespace preorder paid strictly less than the price of its
namespace id. -/
theorem price_namespace_values_and_reveal_fee_check :
    (∀ ns : List Char, ns.length = 1 → price_namespace false ns = 400 * 10 ^ 8) ∧
    (∀ ns : List Char, ns.length = 2 ∨ ns.length = 3 →
       price_namespace false ns = 40 * 10 ^ 8) ∧
    (∀ ns : List Char, 4 ≤ ns.length → ns.length ≤ 7 →
       price_namespace false ns = 4 * 10 ^ 8) ∧
    (∀ ns : List Char, 8 ≤ ns.length → price_namespace false ns = 40000000) ∧
    (∀ ns : List Char, price_namespace true ns = 10000) ∧
    (∀ (testset : Bool) (st : RevealState) (op : RevealOp) (block_id : ℕ)
       (po : NsPreorderRec) (fee : ℕ),
       st.get_namespace_preorder op.preorder_hash = some po →
       po.op_fee = some fee →
       fee < price_namespace testset op.namespace_id →
       namespacereveal_check testset st op block_id = false) := by
  refine ⟨?_, ?_, ?_, ?_, ?_, ?_⟩
  · intro ns h
    unfold price_namespace
    rw [if_pos h]
    norm_num [NAMESPACE_1_CHAR_COST, SATOSHIS_PER_BTC]
  · intro ns h
    unfold price_namespace
    rw [if_neg (by omega), if_pos h]
    norm_num [NAMESPACE_23_CHAR_COST, SATOSHIS_PER_BTC]
  · intro ns h4 h7
    unfold price_namespace
    rw [if_neg (by omega), if_neg (by omega), if_pos (by omega)]
    norm_num [NAMESPACE_4567_CHAR_COST, SATOSHIS_PER_BTC]
  · intro ns h
    unfold price_namespace
    rw [if_neg (by omega), if_neg (by omega), if_neg (by omega)]
    norm_num [NAMESPACE_8UP_CHAR_COST]
  · intro ns
    unfold price_namespace
    split_ifs <;> first | rfl | simp_all
  · intro testset st op block_id po fee hpo hfee hlt
    unfold namespacereveal_check
    simp only [hpo, hfee]
    split_ifs <;> first | rfl | exact absurd hlt (by assumption)

/-- **C4 (witness).** The 1-character namespace `a` costs `400·10^8` on
mainnet, and the reveal `c4_op` (namespace `cost`, priced `4·10^8`) whose
preorder paid 1 satoshi is rejected. -/
theorem price_namespace_values_and_reveal_fee_check_witness :
    price_namespace false "a".toList = 400 * 10 ^ 8 ∧
    price_namespace true "a".toList = 10000 ∧
    namespacereveal_check false c4_state c4_op 101 = false :=
  ⟨price_namespace_values_and_reveal_fee_check.1 "a".toList (by decide),
   price_namespace_values_and_reveal_fee_check.2.2.2.2.1 "a".toList,
   price_namespace_values_and_reveal_fee_check.2.2.2.2.2 false c4_state c4_op 101
     c4_preorder 1 (by decide) (by decide) (by decide)⟩

/-! ## C5 -/

set_option maxHeartbeats 1000000 in
/-- **C5.** Every accepted NAME_TRANSFER commits a record whose owner script
and address are the recipient's script and address from the transaction
outputs; with `keep_data = false` (wire disposition `'~'`) the committed
`value_hash` is cleared, and with `keep_data = true` (disposition `'>'`) it
is the prior record's `value_hash` unchanged; and acceptance implies the
sender owns the name, the recipient does not already own it, the recipient
is under the 25-name quota, and the consensus hash maps to a known past
block.  The second conjunct ties the wire disposition byte to `keep_data`. -/
theorem transfer_check_commit_fields_and_preconditions :
    (∀ (st : TransferState) (op : TransferOp) (block_id : ℕ) (r : TransferCommit),
       transfer_check st op block_id = some r →
       r.sender = op.recipient ∧
       r.address = op.recipient_address ∧
       (op.keep_data = false → r.value_hash = none) ∧
       (op.keep_data = true → ∃ name_rec,
          st.get_name r.name = some name_rec ∧ r.value_hash = name_rec.value_hash) ∧
       st.is_name_owner r.name op.sender = true ∧
       r.name ∉ st.get_names_owned_by_sender op.recipient ∧
       (st.get_names_owned_by_sender op.recipient).length < MAX_NAMES_PER_SENDER ∧
       st.get_block_from_consensus op.consensus_hash = some r.transfer_send_block_id) ∧
    (∀ (p : List ℕ) (recip : List Char) (t : TransferParsed),
       transfer_parse p recip = some t →
       (p.take 1 = [TRANSFER_REMOVE_DATA] → t.keep_data = false) ∧
       (p.take 1 = [TRANSFER_KEEP_DATA] → t.keep_data = true)) := by
  constructor
  · intro st op block_id r h
    unfold transfer_check at h
    cases h1 : st.get_name_from_name_hash128 op.name_hash128 with
    | none => rw [h1] at h; exact Option.noConfusion h
    | some name =>
      rw [h1] at h
      dsimp only at h
      cases h2 : st.get_name name with
      | none => rw [h2] at h; exact Option.noConfusion h
      | some name_rec =>
        rw [h2] at h
        dsimp only at h
        split_ifs at h with g1 g2 g3 g4 g5 g6 g7 g8 g9 hk <;>
          try exact Option.noConfusion h
        all_goals
          cases h3 : st.get_block_from_consensus op.consensus_hash with
          | none => rw [h3] at h; exact Option.noConfusion h
          | some b =>
            rw [h3] at h
            dsimp only at h
            rw [Option.some_inj] at h
            subst h
            refine ⟨rfl, rfl, ?_, ?_, by simpa using g7, by simpa using g8,
              by simpa using g9, by simpa using h3⟩
            · intro hkk
              simp_all
            · intro hkk
              first
                | exact ⟨name_rec, h2, by simp_all⟩
                | simp_all
  · intro p recip t h
    unfold transfer_parse at h
    dsimp only at h
    split_ifs at h with g1 g2 <;>
      try exact Option.noConfusion h
    rw [Option.some_inj] at h
    subst h
    constructor
    · intro hd
      simp [hd]
    · intro hd
      rw [hd]
      simp [TRANSFER_KEEP_DATA, TRANSFER_REMOVE_DATA]

/-- **C5 (witness).** The drop-data transfer `c5_op` of `alice.test` is
accepted in `c5_state`, and the committed record carries the recipient's
script and address and a cleared `value_hash`. -/
theorem transfer_check_commit_fields_witness :
    transfer_check c5_state c5_op 130 = some c5_commit ∧
    c5_commit.sender = c5_op.recipient ∧
    c5_commit.address = c5_op.recipient_address ∧
    c5_commit.value_hash = none := by
  have h : transfer_check c5_state c5_op 130 = some c5_commit := by decide
  obtain ⟨h1, h2, h3, -⟩ :=
    transfer_check_commit_fields_and_preconditions.1 c5_state c5_op 130 c5_commit h
  exact ⟨h, h1, h2, h3 rfl⟩

/-! ## C6 -/

/-- **C6 (counterexample).** The NAMESPACE_REVEAL parser does *not* reject
short payloads by returning `None`: on a 17-byte payload it raises an
`AssertionError` (`.throws`), contradicting the claim that every per-opcode
parse function rejects malformed payloads by returning `None` and never
raises. -/
theorem namespacereveal_parse_raises_on_short_payload :
    namespacereveal_parse (List.replicate 17 0) = .throws := by decide

/-- **C6 (amended).** NAME_PREORDER's parse returns `None` for every payload
whose length differs from 36 bytes; NAME_TRANSFER's parse returns `None` for
every payload whose length differs from 33 bytes or whose first byte is
neither `'>'` nor `'~'`; both are total and never raise.  The
NAMESPACE_REVEAL parse, however, raises on payloads shorter than 18 bytes
(its callers check the length first) and never raises on longer ones. -/
theorem parse_rejects_malformed :
    (∀ p : List ℕ, p.length ≠ 36 → preorder_parse p = none) ∧
    (∀ (p : List ℕ) (recip : List Char),
       p.length ≠ 33 ∨ (p.take 1 ≠ [TRANSFER_KEEP_DATA] ∧ p.take 1 ≠ [TRANSFER_REMOVE_DATA]) →
       transfer_parse p recip = none) ∧
    (∀ p : List ℕ, min_op_length_namespace_reveal ≤ p.length →
       namespacereveal_parse p ≠ .throws) := by
  refine ⟨?_, ?_, ?_⟩
  · intro p h
    simp only [preorder_parse, preorder_name_hash_len, consensus_hash_len]
    rw [if_pos (by omega)]
  · intro p recip h
    simp only [transfer_parse, name_hash_len, consensus_hash_len]
    rcases h with h | h
    · rw [if_pos (by omega)]
    · by_cases hl : p.length = 33
      · rw [if_neg (by omega)]
        rw [if_pos ⟨h.2, h.1⟩]
      · rw [if_pos (by omega)]
  · intro p h
    simp only [min_op_length_namespace_reveal] at h
    simp only [namespacereveal_parse, min_op_length_namespace_reveal]
    rw [if_neg (by omega)]
    split_ifs <;> simp

/-- **C6 (witness).** The amended statement applied to a 1-byte preorder
payload, a 1-byte transfer payload, and an 18-byte reveal payload. -/
theorem parse_rejects_malformed_witness :
    preorder_parse [0] = none ∧ transfer_parse [0] [] = none ∧
    namespacereveal_parse (List.replicate 18 0) ≠ .throws :=
  ⟨parse_rejects_malformed.1 [0] (by decide),
   parse_rejects_malformed.2.1 [0] [] (Or.inl (by decide)),
   parse_rejects_malformed.2.2 (List.replicate 18 0) (by decide)⟩

/-! ## C10 -/

/-- **C10 (counterexample).** On the 33-byte payload starting with `'x'`
(neither `'>'` nor `'~'`) the blockstack transfer parser rejects
(`none`) while the blockstore transfer parser accepts, producing a parsed
operation with `keep_data = true`: the two parsers do not compute the same
classification for every payload. -/
theorem transfer_parse_blockstore_disagreement :
    transfer_parse c10_payload [] = none ∧
    blockstore_transfer_parse c10_payload [] =
      { name_hash := hexlify (List.replicate 16 0)
        consensus_hash := hexlify (List.replicate 16 0)
        recipient := [], keep_data := true } := by
  constructor <;> decide

/-- **C10 (amended).** On every 33-byte payload whose first byte is `'>'` or
`'~'` the two NAME_TRANSFER payload parsers agree: both accept, and they
coincide on the hex name hash, the hex consensus hash, and the `keep_data`
flag.  (On other payloads the blockstack parser rejects while the blockstore
parser, which checks neither length nor disposition, still accepts.) -/
theorem transfer_parse_blockstore_agreement (p : List ℕ) (recip : List Char)
    (hlen : p.length = 33)
    (hdisp : p.take 1 = [TRANSFER_KEEP_DATA] ∨ p.take 1 = [TRANSFER_REMOVE_DATA]) :
    ∃ t, transfer_parse p recip = some t ∧
      t.name_hash128 = (blockstore_transfer_parse p recip).name_hash ∧
      t.consensus_hash = (blockstore_transfer_parse p recip).consensus_hash ∧
      t.keep_data = (blockstore_transfer_parse p recip).keep_data := by
  unfold transfer_parse blockstore_transfer_parse
  dsimp only
  rw [if_neg (by simp [name_hash_len, consensus_hash_len, hlen])]
  rw [if_neg (by
    rcases hdisp with h | h <;> simp [h, TRANSFER_KEEP_DATA, TRANSFER_REMOVE_DATA])]
  exact ⟨_, rfl, rfl, rfl, rfl⟩

/-- **C10 (witness).** The agreement applied to the 33-byte payload
`'>' :: 0…0`. -/
theorem transfer_parse_blockstore_agreement_witness :
    ∃ t, transfer_parse (62 :: List.replicate 32 0) [] = some t ∧
      t.name_hash128 = (blockstore_transfer_parse (62 :: List.replicate 32 0) []).name_hash ∧
      t.consensus_hash =
        (blockstore_transfer_parse (62 :: List.replicate 32 0) []).consensus_hash ∧
      t.keep_data = (blockstore_transfer_parse (62 :: List.replicate 32 0) []).keep_data :=
  transfer_parse_blockstore_agreement (62 :: List.replicate 32 0) [] (by decide)
    (Or.inl (by decide))

/-! ## C8 -/

theorem contains_false_not_mem {l : List Char} {c : Char}
    (h : l.contains c = false) : c ∉ l := by
  intro hmem
  have hc : l.contains c = true := by
    rw [List.contains_iff_exists_mem_beq]
    exact ⟨c, hmem, by simp⟩
  rw [hc] at h
  cases h

theorem takeWhile_append_stop {α : Type} (p : α → Bool) (l₁ l₂ : List α) (a : α)
    (h₁ : ∀ x ∈ l₁, p x = true) (ha : p a = false) :
    (l₁ ++ a :: l₂).takeWhile p = l₁ := by
  induction l₁ with
  | nil => simp [List.takeWhile_cons, ha]
  | cons x xs ih =>
    have hx : p x = true := h₁ x (by simp)
    simp [List.takeWhile_cons, hx]
    exact ih fun y hy => h₁ y (by simp [hy])

theorem dropWhile_append_stop {α : Type} (p : α → Bool) (l₁ l₂ : List α) (a : α)
    (h₁ : ∀ x ∈ l₁, p x = true) (ha : p a = false) :
    (l₁ ++ a :: l₂).dropWhile p = a :: l₂ := by
  induction l₁ with
  | nil => simp [List.dropWhile_cons, ha]
  | cons x xs ih =>
    have hx : p x = true := h₁ x (by simp)
    simp [List.dropWhile_cons, hx]
    exact ih fun y hy => h₁ y (by simp [hy])

/-- **C8.** `is_name_valid` accepts every fully-qualified name made of a
nonempty base-40 name part and a nonempty base-40 namespace part joined by a
single `'.'` (neither part containing `'+'` or `'.'`) whose total length is
at most 37 bytes, and rejects every string of length 38 or more (any string
of length 1 through 37 meeting the structural conditions falls under the
first part). -/
theorem is_name_valid_characterization :
    (∀ (name namespace_id : List Char),
       name ≠ [] → namespace_id ≠ [] →
       is_b40 name = true → is_b40 namespace_id = true →
       name.contains '+' = false → name.contains '.' = false →
       namespace_id.contains '+' = false → namespace_id.contains '.' = false →
       (name ++ '.' :: namespace_id).length ≤ 37 →
       is_name_valid (name ++ '.' :: namespace_id) = true) ∧
    (∀ fqn : List Char, 38 ≤ fqn.length → is_name_valid fqn = false) := by
  constructor
  · intro name namespace_id hn hns hb1 hb2 hp1 hd1 hp2 hd2 hlen
    have hmem1 : '.' ∉ name := contains_false_not_mem hd1
    have hmem2 : '.' ∉ namespace_id := contains_false_not_mem hd2
    have hcount : (name ++ '.' :: namespace_id).count '.' = 1 := by
      have h0 : name.count '.' = 0 := by
        simpa using List.count_eq_zero.2 hmem1
      have h2 : namespace_id.count '.' = 0 := by
        simpa using List.count_eq_zero.2 hmem2
      simp [List.count_append, List.count_cons, h0, h2]
    have hone : ∀ y ∈ name, (fun c => decide (c ≠ '.')) y = true := by
      intro y hy
      simp only [decide_eq_true_eq]
      intro hcontra
      exact hmem1 (hcontra ▸ hy)
    have htake : (name ++ '.' :: namespace_id).takeWhile (fun c => c ≠ '.') = name :=
      takeWhile_append_stop _ _ _ _ hone (by simp)
    have hdrop :
        (name ++ '.' :: namespace_id).dropWhile (fun c => c ≠ '.') = '.' :: namespace_id :=
      dropWhile_append_stop _ _ _ _ hone (by simp)
    unfold is_name_valid
    rw [hcount]
    rw [if_neg (by simp)]
    rw [htake, hdrop]
    dsimp only
    rw [if_neg (by
      simp [List.length_eq_zero]
      exact ⟨hn, hns⟩)]
    rw [if_neg (by
      simp [hb1]
      exact ⟨contains_false_not_mem hp1, hmem1⟩)]
    rw [if_neg (by
      simp [hb2]
      exact ⟨contains_false_not_mem hp2, hmem2⟩)]
    rw [if_neg (by
      simp only [blockchain_id_name_len, List.length_append, List.length_cons]
      simp only [List.length_append, List.length_cons] at hlen
      omega)]
  · intro fqn h
    unfold is_name_valid
    dsimp only
    split_ifs with g1 g2 g3 g4 g5 <;> try rfl
    exfalso
    simp only [blockchain_id_name_len] at g5
    omega

/-- **C8 (witness).** `a.b` (length 3) and a 37-byte name
(35 `a`s, a dot, and `b`) are accepted; a 38-byte string is rejected. -/
theorem is_name_valid_characterization_witness :
    is_name_valid ("a".toList ++ '.' :: "b".toList) = true ∧
    is_name_valid (List.replicate 35 'a' ++ '.' :: "b".toList) = true ∧
    is_name_valid (List.replicate 38 'a') = false :=
  ⟨is_name_valid_characterization.1 "a".toList "b".toList (by decide) (by decide)
     (by decide) (by decide) (by decide) (by decide) (by decide) (by decide) (by decide),
   is_name_valid_characterization.1 (List.replicate 35 'a') "b".toList (by decide)
     (by decide) (by decide) (by decide) (by decide) (by decide) (by decide) (by decide)
     (by decide),
   is_name_valid_characterization.2 (List.replicate 38 'a') (by decide)⟩

/-! ## C7 supporting lemmas -/

theorem bytes_of_nat_length : ∀ (k n : ℕ), (bytes_of_nat k n).length = k
  | 0, _ => rfl
  | k + 1, n => by simp [bytes_of_nat, bytes_of_nat_length k]

theorem nat_of_bytes_append_singleton (l : List ℕ) (b : ℕ) :
    nat_of_bytes (l ++ [b]) = nat_of_bytes l * 256 + b := by
  simp [nat_of_bytes, List.foldl_append]

theorem nat_of_bytes_bytes_of_nat : ∀ (k n : ℕ), n < 256 ^ k →
    nat_of_bytes (bytes_of_nat k n) = n
  | 0, n, h => by
    simp [Nat.pow_zero] at h
    simp [bytes_of_nat, nat_of_bytes, h]
  | k + 1, n, h => by
    have hdiv : n / 256 < 256 ^ k := by
      rw [Nat.div_lt_iff_lt_mul (by norm_num)]
      calc n < 256 ^ (k + 1) := h
        _ = 256 ^ k * 256 := by ring
    rw [bytes_of_nat, nat_of_bytes_append_singleton,
      nat_of_bytes_bytes_of_nat k (n / 256) hdiv]
    omega

theorem pack_nibbles_length : ∀ l : List ℕ, (pack_nibbles l).length = (l.length + 1) / 2
  | [] => rfl
  | [_] => by simp [pack_nibbles]
  | _ :: _ :: rest => by
    simp [pack_nibbles, pack_nibbles_length rest]
    omega

theorem unpack_pack_nibbles : ∀ l : List ℕ, (∀ x ∈ l, x < 16) → l.length % 2 = 0 →
    unpack_nibbles (pack_nibbles l) = l
  | [], _, _ => rfl
  | [_], _, hlen => by simp at hlen
  | n1 :: n2 :: rest, hb, hlen => by
    have h1 : n1 < 16 := hb n1 (by simp)
    have h2 : n2 < 16 := hb n2 (by simp)
    have ih := unpack_pack_nibbles rest (fun x hx => hb x (by simp [hx]))
      (by simp only [List.length_cons] at hlen; omega)
    simp only [pack_nibbles, unpack_nibbles, List.map_cons, List.flatten_cons] at ih ⊢
    rw [ih]
    have e1 : (n1 * 16 + n2) / 16 % 16 = n1 := by omega
    have e2 : (n1 * 16 + n2) % 16 = n2 := by omega
    rw [e1, e2]
    rfl

theorem chars_of_bytes_bytes_of_chars (s : List Char) :
    chars_of_bytes (bytes_of_chars s) = s := by
  simp [chars_of_bytes, bytes_of_chars, List.map_map, Function.comp_def, Char.ofNat_toNat]

theorem hexlify_append (l₁ l₂ : List ℕ) :
    hexlify (l₁ ++ l₂) = hexlify l₁ ++ hexlify l₂ := by
  simp [hexlify]

theorem hexlify_length : ∀ l : List ℕ, (hexlify l).length = 2 * l.length
  | [] => rfl
  | b :: rest => by
    simp only [hexlify, List.map_cons, List.flatten_cons, List.length_append,
      List.length_cons] at *
    rw [show (List.map hexlify_byte rest).flatten.length = (hexlify rest).length from rfl,
      hexlify_length rest]
    simp [hexlify_byte]
    omega

theorem contains_true_mem {l : List Char} {c : Char} (h : l.contains c = true) : c ∈ l := by
  rw [List.contains_iff_exists_mem_beq] at h
  obtain ⟨b, hb, hcb⟩ := h
  rw [show c = b by simpa using hcb]
  exact hb

/-- The finite per-digit facts behind the hex round trip. -/
theorem hex_digit_round (c : Char) (hc : c ∈ lower_hex_digits) :
    hex_digit_val c = some ((hex_digit_val c).getD 0) ∧
    (hex_digit_val c).getD 0 < 16 ∧
    lower_hex_digits.getD ((hex_digit_val c).getD 0) '0' = c := by
  fin_cases hc <;> decide

theorem unhexlify_hexlify_of_lower_hex :
    ∀ s : List Char, is_lower_hex s = true → s.length % 2 = 0 →
      ∃ bs, unhexlify s = some bs ∧ hexlify bs = s ∧ bs.length = s.length / 2
  | [] => fun _ _ => ⟨[], rfl, rfl, rfl⟩
  | [_] => fun _ hlen => by simp at hlen
  | c1 :: c2 :: rest => fun hhex hlen => by
    simp only [is_lower_hex, List.all_cons, Bool.and_eq_true] at hhex
    obtain ⟨hc1, hc2, hrest⟩ := hhex
    obtain ⟨bs, hu, hh, hl⟩ :=
      unhexlify_hexlify_of_lower_hex rest hrest
        (by simp only [List.length_cons] at hlen; omega)
    obtain ⟨he1, hv1, hg1⟩ := hex_digit_round c1 (contains_true_mem hc1)
    obtain ⟨he2, hv2, hg2⟩ := hex_digit_round c2 (contains_true_mem hc2)
    set v1 := (hex_digit_val c1).getD 0
    set v2 := (hex_digit_val c2).getD 0
    refine ⟨(16 * v1 + v2) :: bs, ?_, ?_, ?_⟩
    · rw [unhexlify, he1, he2, hu]
      rfl
    · simp only [hexlify, List.map_cons, List.flatten_cons]
      rw [show (List.map hexlify_byte bs).flatten = hexlify bs from rfl, hh]
      have e1 : (16 * v1 + v2) / 16 % 16 = v1 := by omega
      have e2 : (16 * v1 + v2) % 16 = v2 := by omega
      simp only [hexlify_byte, e1, e2]
      rw [hg1, hg2]
      rfl
    · simp only [List.length_cons, hl]
      omega

/-- The parameter bounds guaranteed by a passing
`namespacereveal_sanity_check`. -/
theorem namespacereveal_sanity_components
    {namespace_id : List Char} {version lifetime coeff base : ℕ} {buckets : List ℕ}
    {nonalpha_discount no_vowel_discount : ℕ}
    (h : namespacereveal_sanity_check namespace_id version lifetime coeff base buckets
      nonalpha_discount no_vowel_discount = true) :
    is_b40 namespace_id = true ∧ namespace_id.length ≤ 19 ∧
    coeff ≤ 255 ∧ base ≤ 255 ∧ buckets.length = 16 ∧ (∀ b ∈ buckets, b ≤ 15) ∧
    1 ≤ nonalpha_discount ∧ nonalpha_discount ≤ 15 ∧
    1 ≤ no_vowel_discount ∧ no_vowel_discount ≤ 15 := by
  unfold namespacereveal_sanity_check at h
  split_ifs at h with g1 g2 g3 g4 g5 g6 g7 g8 <;> try cases h
  simp only [not_or, not_lt, Bool.not_eq_true, blockchain_id_namespace_id_len] at g1 g2 g3 g4 g5 g6 g7 g8
  refine ⟨?_, by omega, by omega, by omega, by omega, ?_, by omega, by omega, by omega, by omega⟩
  · rcases g1 with ⟨hb, -, -⟩
    simpa using hb
  · intro b hb
    have := g6
    simp only [Bool.not_eq_false, List.all_eq_true, decide_eq_true_eq] at this
    exact this b hb

/-! ## C7 -/

/-- **C7 (counterexample).** The parameters `version = 65536` (with
everything else well-formed) pass `namespacereveal_sanity_check` — which
never examines `version` — yet `build` raises (`serialize_int` overflows on
the 2-byte version field), so `parse (build …)` cannot return the fields:
the round trip fails for parameters that pass the sanity check. -/
theorem namespacereveal_build_raises_on_big_version :
    namespacereveal_sanity_check "test".toList 65536 1 250 4
        [6, 5, 4, 3, 3, 3, 3, 2, 2, 2, 1, 1, 1, 1, 1, 1] 10 10 = true ∧
    namespacereveal_build_payload "test".toList 65536 1 250 4
        [6, 5, 4, 3, 3, 3, 3, 2, 2, 2, 1, 1, 1, 1, 1, 1] 10 10 = none := by
  constructor <;> decide

/-- **C7 (amended).** For every NAMESPACE_REVEAL whose parameters pass
`namespacereveal_sanity_check` *and* whose namespace id is nonempty,
lifetime fits 4 bytes and version fits 2 bytes (none of which the sanity
check guarantees), parsing the built payload (minus the 3-byte prefix)
recovers the same lifetime, coeff, base, buckets, version, discounts and
namespace id; and NAME_PREORDER's parse of build's output returns the same
preorder hash and consensus hash (hashes being the 40- and 32-character
lowercase hex digests the system produces). -/
theorem parse_build_roundtrip :
    (∀ (namespace_id : List Char) (version lifetime coeff base : ℕ) (buckets : List ℕ)
       (nonalpha_discount no_vowel_discount : ℕ),
       namespacereveal_sanity_check namespace_id version lifetime coeff base buckets
         nonalpha_discount no_vowel_discount = true →
       namespace_id ≠ [] → lifetime < 2 ^ 32 → version < 2 ^ 16 →
       ∃ payload,
         namespacereveal_build_payload namespace_id version lifetime coeff base buckets
           nonalpha_discount no_vowel_discount = some payload ∧
         namespacereveal_parse payload = .ok
           { lifetime := lifetime, coeff := coeff, base := base, buckets := buckets
             version := version, nonalpha_discount := nonalpha_discount
             no_vowel_discount := no_vowel_discount, namespace_id := namespace_id }) ∧
    (∀ name_hash consensus_hash : List Char,
       name_hash.length = 40 → consensus_hash.length = 32 →
       is_lower_hex name_hash = true → is_lower_hex consensus_hash = true →
       ∃ payload, preorder_build_payload name_hash consensus_hash = some payload ∧
         preorder_parse payload = some
           { preorder_hash := name_hash, consensus_hash := consensus_hash }) := by
  constructor
  · intro nsid version lifetime coeff base buckets na nv hsan hne hlife hver
    obtain ⟨hb40, hlen19, hcoeff, hbase, h16, hball, hna1, hna15, hnv1, hnv15⟩ :=
      namespacereveal_sanity_components hsan
    rw [show (2:ℕ) ^ 32 = 4294967296 by norm_num] at hlife
    rw [show (2:ℕ) ^ 16 = 65536 by norm_num] at hver
    set A := bytes_of_nat 4 lifetime with hA
    set B := bytes_of_nat 1 coeff with hB
    set C := bytes_of_nat 1 base with hC
    set D := pack_nibbles buckets with hD
    set E := [na * 16 + nv] with hE
    set F := bytes_of_nat 2 version with hF
    set G := bytes_of_chars nsid with hG
    have hAl : A.length = 4 := bytes_of_nat_length 4 lifetime
    have hBl : B.length = 1 := bytes_of_nat_length 1 coeff
    have hCl : C.length = 1 := bytes_of_nat_length 1 base
    have hDl : D.length = 8 := by rw [hD, pack_nibbles_length, h16]
    have hEl : E.length = 1 := rfl
    have hFl : F.length = 2 := bytes_of_nat_length 2 version
    have hGl : G.length = nsid.length := by simp [hG, bytes_of_chars]
    have hGpos : 1 ≤ nsid.length := List.length_pos.2 hne
    set P := A ++ B ++ C ++ D ++ E ++ F ++ G with hP
    have hPassoc : P = A ++ (B ++ (C ++ (D ++ (E ++ (F ++ G))))) := by
      simp [hP, List.append_assoc]
    have hPl : P.length = 17 + nsid.length := by
      simp only [hP, List.length_append, hAl, hBl, hCl, hDl, hEl, hFl, hGl]
    refine ⟨P, ?_, ?_⟩
    · unfold namespacereveal_build_payload
      rw [if_neg (by simp [hsan]),
        if_neg (by
          rw [show (2:ℕ) ^ 32 = 4294967296 by norm_num,
            show (2:ℕ) ^ 16 = 65536 by norm_num]
          omega)]
    · have e1 : P.take 4 = A := by
        rw [hPassoc]; exact List.take_left' hAl
      have d4 : P.drop 4 = B ++ (C ++ (D ++ (E ++ (F ++ G)))) := by
        rw [hPassoc]; exact List.drop_left' hAl
      have e2 : (P.drop 4).take 1 = B := by
        rw [d4]; exact List.take_left' hBl
      have d5 : P.drop 5 = C ++ (D ++ (E ++ (F ++ G))) := by
        have hdd : P.drop 5 = (P.drop 4).drop 1 := by
          rw [List.drop_drop]
        rw [hdd, d4]
        exact List.drop_left' hBl
      have e3 : (P.drop 5).take 1 = C := by
        rw [d5]; exact List.take_left' hCl
      have d6 : P.drop 6 = D ++ (E ++ (F ++ G)) := by
        have hdd : P.drop 6 = (P.drop 5).drop 1 := by
          rw [List.drop_drop]
        rw [hdd, d5]
        exact List.drop_left' hCl
      have e4 : (P.drop 6).take 8 = D := by
        rw [d6]; exact List.take_left' hDl
      have d14 : P.drop 14 = E ++ (F ++ G) := by
        have hdd : P.drop 14 = (P.drop 6).drop 8 := by
          rw [List.drop_drop]
        rw [hdd, d6]
        exact List.drop_left' hDl
      have e5 : (P.drop 14).take 1 = E := by
        rw [d14]; exact List.take_left' hEl
      have d15 : P.drop 15 = F ++ G := by
        have hdd : P.drop 15 = (P.drop 14).drop 1 := by
          rw [List.drop_drop]
        rw [hdd, d14]
        exact List.drop_left' hEl
      have e6 : (P.drop 15).take 2 = F := by
        rw [d15]; exact List.take_left' hFl
      have d17 : P.drop 17 = G := by
        have hdd : P.drop 17 = (P.drop 15).drop 2 := by
          rw [List.drop_drop]
        rw [hdd, d15]
        exact List.drop_left' hFl
      unfold namespacereveal_parse
      rw [if_neg (by
        simp only [min_op_length_namespace_reveal, hPl]
        omega)]
      dsimp only
      rw [e1, e2, e3, e4, e5, e6, d17]
      rw [hA, nat_of_bytes_bytes_of_nat 4 lifetime (by norm_num; omega)]
      rw [hB, nat_of_bytes_bytes_of_nat 1 coeff (by norm_num; omega)]
      rw [hC, nat_of_bytes_bytes_of_nat 1 base (by norm_num; omega)]
      rw [hD, unpack_pack_nibbles buckets
        (fun b hb => by have := hball b hb; omega) (by rw [h16])]
      rw [hF, nat_of_bytes_bytes_of_nat 2 version (by norm_num; omega)]
      rw [hG, chars_of_bytes_bytes_of_chars]
      rw [hE]
      simp only [List.headD_cons]
      rw [show (na * 16 + nv) / 16 % 16 = na by omega,
        show (na * 16 + nv) % 16 = nv by omega]
      rw [if_neg (by simp [hsan])]
  · intro nh ch h40 h32 hhex1 hhex2
    have hhex : is_lower_hex (nh ++ ch) = true := by
      simp only [is_lower_hex, List.all_append, Bool.and_eq_true]
      exact ⟨hhex1, hhex2⟩
    have heven : (nh ++ ch).length % 2 = 0 := by
      simp [h40, h32]
    obtain ⟨bs, hu, hh, hl⟩ := unhexlify_hexlify_of_lower_hex _ hhex heven
    have hbsl : bs.length = 36 := by
      simp only [List.length_append, h40, h32] at hl
      omega
    refine ⟨bs, hu, ?_⟩
    simp only [preorder_parse, preorder_name_hash_len, consensus_hash_len]
    rw [if_neg (by omega)]
    have hx : hexlify (bs.take 20) ++ hexlify (bs.drop 20) = nh ++ ch := by
      rw [← hexlify_append, List.take_append_drop, hh]
    have hlen1 : (hexlify (bs.take 20)).length = nh.length := by
      rw [hexlify_length]
      simp [List.length_take, hbsl, h40]
    obtain ⟨hx1, hx2⟩ := List.append_inj hx hlen1
    rw [hx1, hx2]

/-- **C7 (witness).** The round trip at the spec's concrete namespace
(`test`, version 1, lifetime 52595, coeff 250, base 4, the scenario's
buckets, both discounts 10) and at a 20-byte/16-byte preorder-hash pair. -/
theorem parse_build_roundtrip_witness :
    (∃ payload,
       namespacereveal_build_payload "test".toList 1 52595 250 4
           [6, 5, 4, 3, 3, 3, 3, 2, 2, 2, 1, 1, 1, 1, 1, 1] 10 10 = some payload ∧
       namespacereveal_parse payload = .ok
         { lifetime := 52595, coeff := 250, base := 4
           buckets := [6, 5, 4, 3, 3, 3, 3, 2, 2, 2, 1, 1, 1, 1, 1, 1], version := 1
           nonalpha_discount := 10, no_vowel_discount := 10
           namespace_id := "test".toList }) ∧
    (∃ payload,
       preorder_build_payload (List.replicate 40 'a') (List.replicate 32 '0') =
         some payload ∧
       preorder_parse payload = some
         { preorder_hash := List.replicate 40 'a'
           consensus_hash := List.replicate 32 '0' }) :=
  ⟨parse_build_roundtrip.1 "test".toList 1 52595 250 4
     [6, 5, 4, 3, 3, 3, 3, 2, 2, 2, 1, 1, 1, 1, 1, 1] 10 10
     (by decide) (by decide) (by decide) (by decide),
   parse_build_roundtrip.2 (List.replicate 40 'a') (List.replicate 32 '0')
     (by decide) (by decide) (by decide) (by decide)⟩
